import Mathlib

/-!
Shallow embedding of the Pathagoras core (`src/core.py`).

Modelling conventions:
- Python floats are embedded as real numbers (`ℝ`).  A raw UI string is
  classified by what Python's `float()` does to it: `RawStr.blank` for a
  string whose `strip()` is empty, `RawStr.notNum` when `float()` raises,
  `RawStr.nonfinite` when it parses to NaN or ±infinity, and `RawStr.num x`
  when it parses to the finite value `x`.
- A Python `dict[str, ...]` is an association list with the keys in
  insertion order (a real dict has pairwise distinct keys).
- A method that can raise returns `Except (PyErr × TriangleData) TriangleData`:
  the error carries the exception and the state of the object at the moment
  the exception is raised (Python objects survive an exception).  `PyErr`
  distinguishes `ValueError` (which `proceed_data` catches) from `TypeError`
  (which would escape the `except ValueError` handler).
-/

noncomputable section

/-- Classification of a raw UI string by the behaviour of Python `float()`. -/
inductive RawStr where
  | blank : RawStr
  | notNum : RawStr
  | nonfinite : RawStr
  | num : ℝ → RawStr

/-- A Python value stored in the input dict: `None`, a string, or a float. -/
inductive PyVal where
  | vNone : PyVal
  | vStr : RawStr → PyVal
  | vNum : ℝ → PyVal

/-- A Python exception: `proceed_data` catches `ValueError` only. -/
inductive PyErr where
  | valueError : String → PyErr
  | typeError : String → PyErr

deriving instance DecidableEq for PyErr

/-- `TriangleData` from `src/core.py`: sides `a`, `b` (legs), `c`
(hypotenuse), the two flags and the UI message. -/
structure TriangleData where
  a : Option ℝ := none
  b : Option ℝ := none
  c : Option ℝ := none
  is_right : Bool := false
  is_valid : Bool := false
  message : String := ""

namespace TriangleData

/-- `TriangleData.compute_hypotenuse`: requires both legs, sets
`c = sqrt(a*a + b*b)` and both flags. -/
def compute_hypotenuse (t : TriangleData) : Except (PyErr × TriangleData) TriangleData :=
  match t.a, t.b with
  | some a, some b =>
      .ok { t with c := some (Real.sqrt (a * a + b * b)), is_valid := true, is_right := true }
  | _, _ =>
      .error (.valueError "Both legs a and b are required to compute hypotenuse c.", t)

/-- `TriangleData.compute_leg`: requires the hypotenuse and exactly one leg,
rejects a known leg strictly greater than the hypotenuse, and sets the
missing leg to `sqrt(c*c - known*known)`. -/
def compute_leg (t : TriangleData) : Except (PyErr × TriangleData) TriangleData :=
  match t.c with
  | none => .error (.valueError "Hypotenuse c is required to compute a leg.", t)
  | some c =>
    match t.a, t.b with
    | none, none =>
        .error (.valueError "Exactly one leg (a or b) must be provided to compute the other.", t)
    | some _, some _ =>
        .error (.valueError "Exactly one leg (a or b) must be provided to compute the other.", t)
    | some a, none =>
        if a > c then
          .error (.valueError "Hypotenuse c must be greater than the known leg.", t)
        else
          .ok { t with b := some (Real.sqrt (c * c - a * a)), is_valid := true, is_right := true }
    | none, some b =>
        if b > c then
          .error (.valueError "Hypotenuse c must be greater than the known leg.", t)
        else
          .ok { t with a := some (Real.sqrt (c * c - b * b)), is_valid := true, is_right := true }

/-- `TriangleData.is_right_triangle`: with all three sides present, sets
`is_right` to the tolerance test `|lhs - rhs| <= max(1e-12, 1e-9 * max(lhs, rhs))`. -/
def is_right_triangle (t : TriangleData) : Except (PyErr × TriangleData) TriangleData :=
  match t.a, t.b, t.c with
  | some a, some b, some c =>
      let lhs := a * a + b * b
      let rhs := c * c
      .ok { t with is_right := decide (|lhs - rhs| ≤ max (1 / 10 ^ 12) (1 / 10 ^ 9 * max lhs rhs)) }
  | _, _, _ =>
      .error (.valueError "All three sides are required to verify a triangle.", t)

/-- `TriangleData.is_triangle_possible`: raises `ValueError` when
`a + b <= c`, otherwise sets `is_valid`.  The Python body performs `a + b`
directly, so a missing side would raise a `TypeError` (None arithmetic),
not a `ValueError`. -/
def is_triangle_possible (t : TriangleData) : Except (PyErr × TriangleData) TriangleData :=
  match t.a, t.b, t.c with
  | some a, some b, some c =>
      if a + b ≤ c then
        .error (.valueError
          "Input sorted: largest treated as hypotenuse. Triangle is impossible: a + b <= c .", t)
      else
        .ok { t with is_valid := true }
  | _, _, _ =>
      .error (.typeError
        "unsupported operand type(s) for +: NoneType and float", t)

end TriangleData

/-- Sorting a three-element list in ascending order, as Python
`sorted([a, b, c])` produces it, written out by comparisons. -/
def sort3 (a b c : ℝ) : ℝ × ℝ × ℝ :=
  if a ≤ b then
    if b ≤ c then (a, b, c)
    else if a ≤ c then (a, c, b)
    else (c, a, b)
  else
    if a ≤ c then (b, a, c)
    else if b ≤ c then (b, c, a)
    else (c, b, a)

namespace TriangleData

/-- `TriangleData.normalise`: requires all three sides, then reassigns
`a, b, c` to the ascending sort of their values. -/
def normalise (t : TriangleData) : Except (PyErr × TriangleData) TriangleData :=
  match t.a, t.b, t.c with
  | some a, some b, some c =>
      .ok { t with a := some (sort3 a b c).1, b := some (sort3 a b c).2.1,
                   c := some (sort3 a b c).2.2 }
  | _, _, _ =>
      .error (.valueError "All three sides are required to validate a triangle.", t)

end TriangleData

/-- The input mapping `dict[str, str | None]`, in insertion order. -/
abbrev Dict : Type := List (String × PyVal)

/-- `validate_required_keys`: the key set must be exactly `{a, b, c}`. -/
def validate_required_keys (data : Dict) : Except String Unit :=
  if (List.map Prod.fst data).toFinset = ({"a", "b", "c"} : Finset String) then
    .ok ()
  else
    .error "Data must contain exactly keys: a, b, c"

/-- `validate_value`: blank/absent maps to `none`; otherwise the value must
parse as a finite, strictly positive number, with a field-specific
`ValueError` for each violation. -/
def validate_value (key : String) (value : PyVal) : Except String (Option ℝ) :=
  match value with
  | .vNone => .ok none
  | .vStr .blank => .ok none
  | .vStr .notNum => .error ("Field " ++ key ++ ": value must be a number.")
  | .vStr .nonfinite =>
      .error ("Field " ++ key ++ ": value must be finite (not NaN or infinity).")
  | .vStr (.num x) =>
      if x ≤ 0 then .error ("Field " ++ key ++ ": value must be greater than zero.")
      else .ok (some x)
  | .vNum x =>
      if x ≤ 0 then .error ("Field " ++ key ++ ": value must be greater than zero.")
      else .ok (some x)

/-- `data[key] = v`: overwrite the value stored under `key`. -/
def dictSet (d : Dict) (key : String) (v : PyVal) : Dict :=
  List.map (fun kv => if kv.1 = key then (kv.1, v) else kv) d

/-- `setattr(triangle, key, v)` for the keys that name modelled fields. -/
def setAttr (t : TriangleData) (key : String) (v : Option ℝ) : TriangleData :=
  match key with
  | "a" => { t with a := v }
  | "b" => { t with b := v }
  | "c" => { t with c := v }
  | _ => t

/-- The Python float-or-None written back into the dict by the parse loop. -/
def optToPyVal : Option ℝ → PyVal
  | none => .vNone
  | some x => .vNum x

/-- `for key, value in data.items(): data[key] = validate_value(key, value);
setattr(triangle, key, data[key])` — iterates the items in insertion order,
mutating the dict and the record; a `ValueError` aborts the loop carrying
the state at that point. -/
def parseLoop : List (String × PyVal) → Dict → TriangleData →
    Except (PyErr × TriangleData × Dict) (TriangleData × Dict)
  | [], d, t => .ok (t, d)
  | kv :: rest, d, t =>
    match validate_value kv.1 kv.2 with
    | .error msg => .error (.valueError msg, t, d)
    | .ok ov => parseLoop rest (dictSet d kv.1 (optToPyVal ov)) (setAttr t kv.1 ov)

/-- `v is None` on a dict value. -/
def isVNone : PyVal → Bool
  | .vNone => true
  | _ => false

/-- `missing_keys = [k for k, v in data.items() if v is None]`. -/
def missingKeys (d : Dict) : List String :=
  List.map Prod.fst (List.filter (fun kv => isVNone kv.2) d)

/-- The mode dispatch of `proceed_data` after validation and parsing:
count the missing sides and solve or verify accordingly. -/
def afterParse (t : TriangleData) (d : Dict) :
    Except (PyErr × TriangleData × Dict) (TriangleData × Dict) :=
  let missing := missingKeys d
  if missing.length > 1 then
    .error (.valueError
      "Enter exactly two values to compute the missing one, or all three values to verify.", t, d)
  else if missing.length = 1 then
    if "c" ∈ missing then
      match t.compute_hypotenuse with
      | .error (e, t') => .error (e, t', d)
      | .ok t' => .ok ({ t' with message := "Hypotenuse calculated" }, d)
    else
      match t.compute_leg with
      | .error (e, t') => .error (e, t', d)
      | .ok t' => .ok ({ t' with message := "Leg calculated" }, d)
  else
    match t.normalise with
    | .error (e, t') => .error (e, t', d)
    | .ok t₁ =>
      match t₁.is_triangle_possible with
      | .error (e, t') => .error (e, t', d)
      | .ok t₂ =>
        match t₂.is_right_triangle with
        | .error (e, t') => .error (e, t', d)
        | .ok t₃ =>
          if t₃.is_right then
            .ok ({ t₃ with
              message := "Input sorted: largest treated as hypotenuse. Triangle is RIGHT" }, d)
          else
            .ok ({ t₃ with
              message := "Input sorted: largest treated as hypotenuse. Triangle is NOT right" }, d)

/-- The body of the `try:` block of `proceed_data`. -/
def bodyRun (data : Dict) : Except (PyErr × TriangleData × Dict) (TriangleData × Dict) :=
  let triangle : TriangleData := {}
  match validate_required_keys data with
  | .error msg => .error (.valueError msg, triangle, data)
  | .ok _ =>
    match parseLoop data data triangle with
    | .error e => .error e
    | .ok (t, d) => afterParse t d

/-- The `except ValueError as e:` handler: convert a `ValueError` into a
returned record with the flags reset; any other exception escapes. -/
def handleErr : Except (PyErr × TriangleData × Dict) (TriangleData × Dict) →
    Except PyErr (TriangleData × Dict)
  | .ok td => .ok td
  | .error (.valueError msg, t, d) =>
      .ok ({ t with message := msg, is_valid := false, is_right := false }, d)
  | .error (.typeError msg, _, _) => .error (.typeError msg)

/-- `proceed_data`: the orchestration entry point.  The result pairs the
returned `TriangleData` with the final state of the (mutated) argument
dict; an uncaught exception appears as `.error`. -/
def proceed_data (data : Dict) : Except PyErr (TriangleData × Dict) :=
  handleErr (bodyRun data)

/-- The dict as the parse loop leaves it when every value parses: each
value replaced by its parsed float (or `None` for blank/absent). -/
def parsedDict (data : Dict) : Dict :=
  List.map (fun kv : String × PyVal =>
    (kv.1, match validate_value kv.1 kv.2 with
           | .ok ov => optToPyVal ov
           | .error _ => kv.2)) data

end

/-! ### Helper lemmas -/

theorem field_msg_ne_empty (k m : String) : ("Field " ++ k ++ m) ≠ "" := by
  intro h
  have hl := congrArg String.length h
  simp [String.length_append] at hl
  exact absurd hl.1.1 (by decide)

theorem sort3_eq_of_sorted (a b c : ℝ) (h1 : a ≤ b) (h2 : b ≤ c) :
    sort3 a b c = (a, b, c) := by
  unfold sort3
  rw [if_pos h1, if_pos h2]

theorem sort3_spec (a b c : ℝ) :
    ((sort3 a b c).1 ≤ (sort3 a b c).2.1 ∧ (sort3 a b c).2.1 ≤ (sort3 a b c).2.2) ∧
    (sort3 a b c).1 = min a (min b c) ∧
    (sort3 a b c).2.2 = max a (max b c) ∧
    (sort3 a b c).1 + (sort3 a b c).2.1 + (sort3 a b c).2.2 = a + b + c := by
  unfold sort3
  split_ifs with h1 h2 h3 h4 h5 <;>
    refine ⟨⟨by linarith, by linarith⟩, ?_, ?_, by ring⟩ <;>
    · simp only [min_def, max_def]
      split_ifs <;> linarith

/-! ### Claim theorems -/

/-- C4: `compute_hypotenuse` with both legs present sets
`c = sqrt(a² + b²)` and both flags; it fails exactly when a leg is absent,
and then the record (in particular every side) is unmodified. -/
theorem compute_hypotenuse_spec (t : TriangleData) :
    (∀ a b, t.a = some a → t.b = some b →
      t.compute_hypotenuse = .ok { t with c := some (Real.sqrt (a * a + b * b)),
                                          is_valid := true, is_right := true }) ∧
    ((t.a = none ∨ t.b = none) →
      t.compute_hypotenuse =
        .error (.valueError "Both legs a and b are required to compute hypotenuse c.", t)) := by
  constructor
  · intro a b ha hb
    simp [TriangleData.compute_hypotenuse, ha, hb]
  · rintro (h | h)
    · cases hb : t.b <;> simp [TriangleData.compute_hypotenuse, h, hb]
    · cases ha : t.a <;> simp [TriangleData.compute_hypotenuse, h, ha]

theorem compute_hypotenuse_spec_witness :
    TriangleData.compute_hypotenuse ⟨some 3, some 4, none, false, false, ""⟩ =
      .ok ⟨some 3, some 4, some 5, true, true, ""⟩ := by
  have h := (compute_hypotenuse_spec ⟨some 3, some 4, none, false, false, ""⟩).1 3 4 rfl rfl
  rw [h, show Real.sqrt (3 * 3 + 4 * 4) = 5 by
    rw [show (3 * 3 + 4 * 4 : ℝ) = 5 ^ 2 by norm_num,
      Real.sqrt_sq (by norm_num : (0 : ℝ) ≤ 5)]]

/-- C3: with all three sides present, `is_right_triangle` sets `is_right`
to exactly the tolerance predicate
`|a² + b² − c²| ≤ max(1e-12, 1e-9·max(a² + b², c²))`, leaving every other
field unchanged; with any side absent it raises a `ValueError`. -/
theorem is_right_triangle_spec (t : TriangleData) :
    (∀ a b c, t.a = some a → t.b = some b → t.c = some c →
      ∃ t', t.is_right_triangle = .ok t' ∧
        (t'.is_right = true ↔
          |a * a + b * b - c * c| ≤
            max (1 / 10 ^ 12) (1 / 10 ^ 9 * max (a * a + b * b) (c * c))) ∧
        t'.a = t.a ∧ t'.b = t.b ∧ t'.c = t.c ∧
        t'.is_valid = t.is_valid ∧ t'.message = t.message) ∧
    ((t.a = none ∨ t.b = none ∨ t.c = none) →
      t.is_right_triangle =
        .error (.valueError "All three sides are required to verify a triangle.", t)) := by
  constructor
  · intro a b c ha hb hc
    refine ⟨{ t with is_right := decide (|a * a + b * b - c * c| ≤
        max (1 / 10 ^ 12) (1 / 10 ^ 9 * max (a * a + b * b) (c * c))) },
      ?_, ?_, rfl, rfl, rfl, rfl, rfl⟩
    · simp only [TriangleData.is_right_triangle, ha, hb, hc]
    · show decide _ = true ↔ _
      simp only [decide_eq_true_eq]
  · rintro (h | h | h)
    · cases hb : t.b <;> cases hc : t.c <;>
        simp [TriangleData.is_right_triangle, h, hb, hc]
    · cases ha : t.a <;> cases hc : t.c <;>
        simp [TriangleData.is_right_triangle, h, ha, hc]
    · cases ha : t.a <;> cases hb : t.b <;>
        simp [TriangleData.is_right_triangle, h, ha, hb]

theorem is_right_triangle_spec_witness :
    ∃ t', TriangleData.is_right_triangle ⟨some 3, some 4, some 5, false, false, ""⟩ = .ok t' ∧
      (t'.is_right = true ↔
        |(3 * 3 + 4 * 4 - 5 * 5 : ℝ)| ≤
          max (1 / 10 ^ 12) (1 / 10 ^ 9 * max (3 * 3 + 4 * 4 : ℝ) (5 * 5))) ∧
      t'.a = some 3 ∧ t'.b = some 4 ∧ t'.c = some 5 ∧
      t'.is_valid = false ∧ t'.message = "" :=
  (is_right_triangle_spec ⟨some 3, some 4, some 5, false, false, ""⟩).1 3 4 5 rfl rfl rfl

/-- C6: with all three sides present and sorted ascending,
`is_triangle_possible` raises exactly when `a + b ≤ c` and otherwise sets
`is_valid`; `(1,2,3)` and `(1,1,2)` are rejected, `(3,4,5)` accepted. -/
theorem is_triangle_possible_spec (t : TriangleData) (a b c : ℝ)
    (ha : t.a = some a) (hb : t.b = some b) (hc : t.c = some c)
    (hab : a ≤ b) (hbc : b ≤ c) :
    (a + b ≤ c → t.is_triangle_possible =
      .error (.valueError
        "Input sorted: largest treated as hypotenuse. Triangle is impossible: a + b <= c .", t)) ∧
    (c < a + b → t.is_triangle_possible = .ok { t with is_valid := true }) ∧
    TriangleData.is_triangle_possible ⟨some 1, some 2, some 3, false, false, ""⟩ =
      .error (.valueError
        "Input sorted: largest treated as hypotenuse. Triangle is impossible: a + b <= c .",
        ⟨some 1, some 2, some 3, false, false, ""⟩) ∧
    TriangleData.is_triangle_possible ⟨some 1, some 1, some 2, false, false, ""⟩ =
      .error (.valueError
        "Input sorted: largest treated as hypotenuse. Triangle is impossible: a + b <= c .",
        ⟨some 1, some 1, some 2, false, false, ""⟩) ∧
    TriangleData.is_triangle_possible ⟨some 3, some 4, some 5, false, false, ""⟩ =
      .ok ⟨some 3, some 4, some 5, false, true, ""⟩ := by
  refine ⟨?_, ?_, ?_, ?_, ?_⟩
  · intro hle
    simp [TriangleData.is_triangle_possible, ha, hb, hc, if_pos hle]
  · intro hlt
    simp [TriangleData.is_triangle_possible, ha, hb, hc, if_neg (not_le.mpr hlt)]
  · simp [TriangleData.is_triangle_possible]
    norm_num
  · simp [TriangleData.is_triangle_possible]
    norm_num
  · simp [TriangleData.is_triangle_possible]
    norm_num

theorem is_triangle_possible_spec_witness :
    TriangleData.is_triangle_possible ⟨some 3, some 4, some 5, false, false, ""⟩ =
      .ok ⟨some 3, some 4, some 5, false, true, ""⟩ :=
  ((is_triangle_possible_spec ⟨some 3, some 4, some 5, false, false, ""⟩ 3 4 5
    rfl rfl rfl (by norm_num) (by norm_num)).2.1) (by norm_num)

/-- C5: `compute_leg` raises a usage error exactly when the hypotenuse is
absent or the number of present legs is not one; with the hypotenuse, one
leg `p ≤ h`, it sets the missing leg to `sqrt(h² − p²)` and both flags. -/
theorem compute_leg_usage_spec (t : TriangleData) :
    ((t.c = none ∨ (t.a = none ↔ t.b = none)) ↔
      (t.compute_leg = .error (.valueError "Hypotenuse c is required to compute a leg.", t) ∨
       t.compute_leg = .error (.valueError
         "Exactly one leg (a or b) must be provided to compute the other.", t))) ∧
    (∀ h p, t.c = some h → t.a = some p → t.b = none → p ≤ h →
      t.compute_leg = .ok { t with b := some (Real.sqrt (h * h - p * p)),
                                   is_valid := true, is_right := true }) ∧
    (∀ h p, t.c = some h → t.b = some p → t.a = none → p ≤ h →
      t.compute_leg = .ok { t with a := some (Real.sqrt (h * h - p * p)),
                                   is_valid := true, is_right := true }) := by
  refine ⟨⟨?_, ?_⟩, ?_, ?_⟩
  · rintro (hc | hab)
    · left
      simp [TriangleData.compute_leg, hc]
    · rcases hcc : t.c with _ | ch
      · left
        simp [TriangleData.compute_leg, hcc]
      · right
        rcases haa : t.a with _ | av
        · have hbb : t.b = none := hab.mp haa
          simp [TriangleData.compute_leg, hcc, haa, hbb]
        · rcases hbb : t.b with _ | bv
          · exact absurd (hab.mpr hbb) (by simp [haa])
          · simp [TriangleData.compute_leg, hcc, haa, hbb]
  · intro hor
    rcases hcc : t.c with _ | ch
    · left
      rfl
    · right
      rcases haa : t.a with _ | av <;> rcases hbb : t.b with _ | bv
      · simp
      · exfalso
        by_cases hgt : bv > ch
        · have he : t.compute_leg =
              .error (.valueError "Hypotenuse c must be greater than the known leg.", t) := by
            simp [TriangleData.compute_leg, hcc, haa, hbb, hgt]
          rcases hor with h | h <;> rw [he] at h <;>
            simp only [Except.error.injEq, Prod.mk.injEq, PyErr.valueError.injEq] at h <;>
            exact absurd h.1 (by decide)
        · have he : t.compute_leg = .ok { t with
              a := some (Real.sqrt (ch * ch - bv * bv)), is_valid := true, is_right := true } := by
            simp [TriangleData.compute_leg, hcc, haa, hbb, hgt]
          rcases hor with h | h <;> rw [he] at h <;> exact Except.noConfusion h
      · exfalso
        by_cases hgt : av > ch
        · have he : t.compute_leg =
              .error (.valueError "Hypotenuse c must be greater than the known leg.", t) := by
            simp [TriangleData.compute_leg, hcc, haa, hbb, hgt]
          rcases hor with h | h <;> rw [he] at h <;>
            simp only [Except.error.injEq, Prod.mk.injEq, PyErr.valueError.injEq] at h <;>
            exact absurd h.1 (by decide)
        · have he : t.compute_leg = .ok { t with
              b := some (Real.sqrt (ch * ch - av * av)), is_valid := true, is_right := true } := by
            simp [TriangleData.compute_leg, hcc, haa, hbb, hgt]
          rcases hor with h | h <;> rw [he] at h <;> exact Except.noConfusion h
      · simp
  · intro h p hc ha hb hle
    have hnp : ¬ p > h := not_lt.mpr hle
    simp [TriangleData.compute_leg, hc, ha, hb, hnp]
  · intro h p hc hb ha hle
    have hnp : ¬ p > h := not_lt.mpr hle
    simp [TriangleData.compute_leg, hc, ha, hb, hnp]

theorem compute_leg_usage_spec_witness :
    TriangleData.compute_leg ⟨some 3, none, some 5, false, false, ""⟩ =
      .ok ⟨some 3, some 4, some 5, true, true, ""⟩ := by
  have h := (compute_leg_usage_spec ⟨some 3, none, some 5, false, false, ""⟩).2.1 5 3
    rfl rfl rfl (by norm_num)
  rw [h, show Real.sqrt (5 * 5 - 3 * 3) = 4 by
    rw [show (5 * 5 - 3 * 3 : ℝ) = 4 ^ 2 by norm_num,
      Real.sqrt_sq (by norm_num : (0 : ℝ) ≤ 4)]]

/-- C2 counterexample: with hypotenuse 5 and known leg 5 (`p == h`),
`compute_leg` does NOT fail — it returns the record with the missing leg
set to 0 and both flags true. -/
theorem compute_leg_eq_case_counterexample :
    TriangleData.compute_leg ⟨some 5, none, some 5, false, false, ""⟩ =
      .ok ⟨some 5, some 0, some 5, true, true, ""⟩ := by
  have h5 : ¬ (5 : ℝ) > 5 := by norm_num
  simp only [TriangleData.compute_leg, h5, if_false, ite_false, if_neg h5]
  rw [show (5 * 5 - 5 * 5 : ℝ) = 0 by norm_num, Real.sqrt_zero]

/-- C2 amended: for positive `h` and known leg `p`, `compute_leg` fails
with the "leg must not exceed hypotenuse" error when `p > h`; when
`p == h` it succeeds, setting the missing leg to 0. -/
theorem compute_leg_boundary (h p : ℝ) (t : TriangleData) (hh : 0 < h) (hp : 0 < p)
    (hc : t.c = some h)
    (hleg : (t.a = some p ∧ t.b = none) ∨ (t.b = some p ∧ t.a = none)) :
    (h < p → t.compute_leg =
      .error (.valueError "Hypotenuse c must be greater than the known leg.", t)) ∧
    (p = h → ∃ t', t.compute_leg = .ok t' ∧ t'.is_valid = true ∧ t'.is_right = true ∧
      (t.a = none → t'.a = some 0) ∧ (t.b = none → t'.b = some 0)) := by
  rcases hleg with ⟨ha, hb⟩ | ⟨hb, ha⟩
  · constructor
    · intro hlt
      simp [TriangleData.compute_leg, hc, ha, hb, hlt]
    · intro hpe
      have hnp : ¬ p > h := by simp [hpe]
      refine ⟨{ t with b := some (Real.sqrt (h * h - p * p)),
                       is_valid := true, is_right := true }, ?_, rfl, rfl, ?_, ?_⟩
      · simp [TriangleData.compute_leg, hc, ha, hb, hnp]
      · intro hta
        rw [ha] at hta
        exact Option.noConfusion hta
      · intro _
        show some (Real.sqrt (h * h - p * p)) = some 0
        rw [hpe, show (h * h - h * h : ℝ) = 0 by ring, Real.sqrt_zero]
  · constructor
    · intro hlt
      simp [TriangleData.compute_leg, hc, ha, hb, hlt]
    · intro hpe
      have hnp : ¬ p > h := by simp [hpe]
      refine ⟨{ t with a := some (Real.sqrt (h * h - p * p)),
                       is_valid := true, is_right := true }, ?_, rfl, rfl, ?_, ?_⟩
      · simp [TriangleData.compute_leg, hc, ha, hb, hnp]
      · intro _
        show some (Real.sqrt (h * h - p * p)) = some 0
        rw [hpe, show (h * h - h * h : ℝ) = 0 by ring, Real.sqrt_zero]
      · intro htb
        rw [hb] at htb
        exact Option.noConfusion htb

theorem compute_leg_boundary_witness :
    ((5 : ℝ) < 5 → TriangleData.compute_leg ⟨some 5, none, some 5, false, false, ""⟩ =
      .error (.valueError "Hypotenuse c must be greater than the known leg.",
        ⟨some 5, none, some 5, false, false, ""⟩)) ∧
    ((5 : ℝ) = 5 → ∃ t', TriangleData.compute_leg ⟨some 5, none, some 5, false, false, ""⟩ =
      .ok t' ∧ t'.is_valid = true ∧ t'.is_right = true ∧
      ((⟨some 5, none, some 5, false, false, ""⟩ : TriangleData).a = none → t'.a = some 0) ∧
      ((⟨some 5, none, some 5, false, false, ""⟩ : TriangleData).b = none → t'.b = some 0)) :=
  compute_leg_boundary 5 5 ⟨some 5, none, some 5, false, false, ""⟩
    (by norm_num) (by norm_num) rfl (Or.inl ⟨rfl, rfl⟩)

/-- C7: `normalise` reassigns the sides to their ascending sort (so `a` is
the smallest and `c` the largest of the three values), is idempotent on an
already-sorted triple, sends every permutation of `{3,4,5}` to `(3,4,5)`,
and raises if any side is absent. -/
theorem normalise_spec (t : TriangleData) :
    (∀ a b c, t.a = some a → t.b = some b → t.c = some c →
      ((a ≤ b → b ≤ c → t.normalise = .ok t) ∧
       (∃ x y z, t.normalise = .ok { t with a := some x, b := some y, c := some z } ∧
         x ≤ y ∧ y ≤ z ∧ x = min a (min b c) ∧ z = max a (max b c) ∧
         x + y + z = a + b + c) ∧
       (((a, b, c) = ((3 : ℝ), (4 : ℝ), (5 : ℝ)) ∨ (a, b, c) = (3, 5, 4) ∨
         (a, b, c) = (4, 3, 5) ∨ (a, b, c) = (4, 5, 3) ∨
         (a, b, c) = (5, 3, 4) ∨ (a, b, c) = (5, 4, 3)) →
         t.normalise = .ok { t with a := some 3, b := some 4, c := some 5 }))) ∧
    ((t.a = none ∨ t.b = none ∨ t.c = none) →
      t.normalise =
        .error (.valueError "All three sides are required to validate a triangle.", t)) := by
  constructor
  · intro a b c ha hb hc
    obtain ⟨ta, tb, tc, tr, tv, tm⟩ := t
    simp only at ha hb hc
    subst ha
    subst hb
    subst hc
    refine ⟨?_, ?_, ?_⟩
    · intro hab hbc
      simp [TriangleData.normalise, sort3_eq_of_sorted a b c hab hbc]
    · exact ⟨(sort3 a b c).1, (sort3 a b c).2.1, (sort3 a b c).2.2,
        by simp [TriangleData.normalise], (sort3_spec a b c).1.1, (sort3_spec a b c).1.2,
        (sort3_spec a b c).2.1, (sort3_spec a b c).2.2.1, (sort3_spec a b c).2.2.2⟩
    · rintro (h | h | h | h | h | h) <;>
      · simp only [Prod.mk.injEq] at h
        obtain ⟨rfl, rfl, rfl⟩ := h
        norm_num [TriangleData.normalise, sort3]
  · rintro (h | h | h)
    · cases hb : t.b <;> cases hc : t.c <;>
        simp [TriangleData.normalise, h, hb, hc]
    · cases ha : t.a <;> cases hc : t.c <;>
        simp [TriangleData.normalise, h, ha, hc]
    · cases ha : t.a <;> cases hb : t.b <;>
        simp [TriangleData.normalise, h, ha, hb]

theorem normalise_spec_witness :
    TriangleData.normalise ⟨some 4, some 5, some 3, false, false, ""⟩ =
      .ok ⟨some 3, some 4, some 5, false, false, ""⟩ :=
  ((normalise_spec ⟨some 4, some 5, some 3, false, false, ""⟩).1 4 5 3
    rfl rfl rfl).2.2 (by norm_num)

/-- C8: the Input Validator maps absent/blank to `none`, otherwise rejects
non-numbers, non-finite values and non-positive values with a
field-specific message, returns the parsed positive number otherwise, and
accepts a mapping exactly when its key set is `{a, b, c}`. -/
theorem validator_spec (k : String) :
    validate_value k .vNone = .ok none ∧
    validate_value k (.vStr .blank) = .ok none ∧
    validate_value k (.vStr .notNum) = .error ("Field " ++ k ++ ": value must be a number.") ∧
    validate_value k (.vStr .nonfinite) =
      .error ("Field " ++ k ++ ": value must be finite (not NaN or infinity).") ∧
    (∀ x : ℝ, x ≤ 0 →
      validate_value k (.vStr (.num x)) =
        .error ("Field " ++ k ++ ": value must be greater than zero.")) ∧
    (∀ x : ℝ, 0 < x → validate_value k (.vStr (.num x)) = .ok (some x)) ∧
    (∀ data : Dict, validate_required_keys data = .ok () ↔
      (List.map Prod.fst data).toFinset = ({"a", "b", "c"} : Finset String)) := by
  refine ⟨rfl, rfl, rfl, rfl, ?_, ?_, ?_⟩
  · intro x hx
    simp [validate_value, hx]
  · intro x hx
    simp [validate_value, not_le.mpr hx]
  · intro data
    unfold validate_required_keys
    by_cases h : (List.map Prod.fst data).toFinset = ({"a", "b", "c"} : Finset String)
    · simp [h]
    · simp [h]

theorem validator_spec_witness :
    validate_value "a" (.vStr (.num 2)) = .ok (some 2) ∧
    validate_value "a" (.vStr (.num (-1))) =
      .error "Field a: value must be greater than zero." := by
  constructor
  · exact (validator_spec "a").2.2.2.2.2.1 2 (by norm_num)
  · rw [(validator_spec "a").2.2.2.2.1 (-1) (by norm_num)]
    rfl

/-! ### Case lemmas: every operation either succeeds or raises a
`ValueError` with a non-empty message (the `TypeError` branch of
`is_triangle_possible` is unreachable after a successful `normalise`). -/

theorem validate_value_cases (k : String) (v : PyVal) :
    (∃ ov, validate_value k v = .ok ov) ∨
    (∃ m, validate_value k v = .error m ∧ m ≠ "") := by
  cases v with
  | vNone => exact Or.inl ⟨none, rfl⟩
  | vStr s =>
    cases s with
    | blank => exact Or.inl ⟨none, rfl⟩
    | notNum =>
      exact Or.inr ⟨"Field " ++ k ++ ": value must be a number.", rfl,
        field_msg_ne_empty k _⟩
    | nonfinite =>
      exact Or.inr ⟨"Field " ++ k ++ ": value must be finite (not NaN or infinity).", rfl,
        field_msg_ne_empty k _⟩
    | num x =>
      by_cases hx : x ≤ 0
      · exact Or.inr ⟨"Field " ++ k ++ ": value must be greater than zero.",
          by simp [validate_value, hx], field_msg_ne_empty k _⟩
      · exact Or.inl ⟨some x, by simp [validate_value, hx]⟩
  | vNum x =>
    by_cases hx : x ≤ 0
    · exact Or.inr ⟨"Field " ++ k ++ ": value must be greater than zero.",
        by simp [validate_value, hx], field_msg_ne_empty k _⟩
    · exact Or.inl ⟨some x, by simp [validate_value, hx]⟩

theorem parseLoop_cases (l : List (String × PyVal)) : ∀ (d : Dict) (t : TriangleData),
    (∃ td, parseLoop l d t = .ok td) ∨
    (∃ m t' d', parseLoop l d t = .error (.valueError m, t', d') ∧ m ≠ "") := by
  induction l with
  | nil =>
    intro d t
    exact Or.inl ⟨(t, d), rfl⟩
  | cons kv rest ih =>
    intro d t
    rcases validate_value_cases kv.1 kv.2 with ⟨ov, hov⟩ | ⟨m, hm, hne⟩
    · rcases ih (dictSet d kv.1 (optToPyVal ov)) (setAttr t kv.1 ov) with ⟨td, htd⟩ |
        ⟨m, t', d', h', hne⟩
      · exact Or.inl ⟨td, by simp [parseLoop, hov, htd]⟩
      · exact Or.inr ⟨m, t', d', by simp [parseLoop, hov, h'], hne⟩
    · exact Or.inr ⟨m, t, d, by simp [parseLoop, hm], hne⟩

theorem compute_hypotenuse_cases (t : TriangleData) :
    (∃ t', t.compute_hypotenuse = .ok t') ∨
    (∃ m, t.compute_hypotenuse = .error (.valueError m, t) ∧ m ≠ "") := by
  rcases ha : t.a with _ | av <;> rcases hb : t.b with _ | bv
  · exact Or.inr ⟨"Both legs a and b are required to compute hypotenuse c.",
      by simp [TriangleData.compute_hypotenuse, ha, hb], by decide⟩
  · exact Or.inr ⟨"Both legs a and b are required to compute hypotenuse c.",
      by simp [TriangleData.compute_hypotenuse, ha, hb], by decide⟩
  · exact Or.inr ⟨"Both legs a and b are required to compute hypotenuse c.",
      by simp [TriangleData.compute_hypotenuse, ha, hb], by decide⟩
  · exact Or.inl ⟨{ t with
        c := some (Real.sqrt (av * av + bv * bv)), is_valid := true, is_right := true },
      by simp [TriangleData.compute_hypotenuse, ha, hb]⟩

theorem compute_leg_cases (t : TriangleData) :
    (∃ t', t.compute_leg = .ok t') ∨
    (∃ m, t.compute_leg = .error (.valueError m, t) ∧ m ≠ "") := by
  rcases hc : t.c with _ | cv
  · exact Or.inr ⟨"Hypotenuse c is required to compute a leg.",
      by simp [TriangleData.compute_leg, hc], by decide⟩
  · rcases ha : t.a with _ | av <;> rcases hb : t.b with _ | bv
    · exact Or.inr ⟨"Exactly one leg (a or b) must be provided to compute the other.",
        by simp [TriangleData.compute_leg, hc, ha, hb], by decide⟩
    · by_cases hgt : bv > cv
      · exact Or.inr ⟨"Hypotenuse c must be greater than the known leg.",
          by simp [TriangleData.compute_leg, hc, ha, hb, hgt], by decide⟩
      · exact Or.inl ⟨{ t with
            a := some (Real.sqrt (cv * cv - bv * bv)), is_valid := true, is_right := true },
          by simp [TriangleData.compute_leg, hc, ha, hb, hgt]⟩
    · by_cases hgt : av > cv
      · exact Or.inr ⟨"Hypotenuse c must be greater than the known leg.",
          by simp [TriangleData.compute_leg, hc, ha, hb, hgt], by decide⟩
      · exact Or.inl ⟨{ t with
            b := some (Real.sqrt (cv * cv - av * av)), is_valid := true, is_right := true },
          by simp [TriangleData.compute_leg, hc, ha, hb, hgt]⟩
    · exact Or.inr ⟨"Exactly one leg (a or b) must be provided to compute the other.",
        by simp [TriangleData.compute_leg, hc, ha, hb], by decide⟩

theorem normalise_cases (t : TriangleData) :
    (∃ t', t.normalise = .ok t') ∨
    (∃ m, t.normalise = .error (.valueError m, t) ∧ m ≠ "") := by
  rcases ha : t.a with _ | av <;> rcases hb : t.b with _ | bv <;> rcases hc : t.c with _ | cv <;>
    first
      | exact Or.inl ⟨{ t with
            a := some (sort3 av bv cv).1, b := some (sort3 av bv cv).2.1,
            c := some (sort3 av bv cv).2.2 }, by simp [TriangleData.normalise, ha, hb, hc]⟩
      | exact Or.inr ⟨"All three sides are required to validate a triangle.",
          by simp [TriangleData.normalise, ha, hb, hc], by decide⟩

theorem normalise_ok_sides {t t' : TriangleData} (h : t.normalise = .ok t') :
    (∃ x, t'.a = some x) ∧ (∃ y, t'.b = some y) ∧ (∃ z, t'.c = some z) := by
  rcases ha : t.a with _ | av <;> rcases hb : t.b with _ | bv <;> rcases hc : t.c with _ | cv <;>
    simp [TriangleData.normalise, ha, hb, hc] at h
  rw [← h]
  exact ⟨⟨_, rfl⟩, ⟨_, rfl⟩, ⟨_, rfl⟩⟩

theorem is_triangle_possible_cases (t : TriangleData)
    (ha : ∃ x, t.a = some x) (hb : ∃ y, t.b = some y) (hc : ∃ z, t.c = some z) :
    (∃ t', t.is_triangle_possible = .ok t') ∨
    (∃ m, t.is_triangle_possible = .error (.valueError m, t) ∧ m ≠ "") := by
  obtain ⟨x, hx⟩ := ha
  obtain ⟨y, hy⟩ := hb
  obtain ⟨z, hz⟩ := hc
  by_cases hle : x + y ≤ z
  · exact Or.inr
      ⟨"Input sorted: largest treated as hypotenuse. Triangle is impossible: a + b <= c .",
        by simp [TriangleData.is_triangle_possible, hx, hy, hz, hle], by decide⟩
  · exact Or.inl ⟨{ t with is_valid := true },
      by simp [TriangleData.is_triangle_possible, hx, hy, hz, hle]⟩

theorem is_right_triangle_cases (t : TriangleData) :
    (∃ t', t.is_right_triangle = .ok t') ∨
    (∃ m, t.is_right_triangle = .error (.valueError m, t) ∧ m ≠ "") := by
  rcases ha : t.a with _ | av <;> rcases hb : t.b with _ | bv <;> rcases hc : t.c with _ | cv <;>
    first
      | exact Or.inl ⟨{ t with is_right := decide (|av * av + bv * bv - cv * cv| ≤
          max (1 / 10 ^ 12) (1 / 10 ^ 9 * max (av * av + bv * bv) (cv * cv))) },
          by simp [TriangleData.is_right_triangle, ha, hb, hc]⟩
      | exact Or.inr ⟨"All three sides are required to verify a triangle.",
          by simp [TriangleData.is_right_triangle, ha, hb, hc], by decide⟩

theorem afterParse_spec (t : TriangleData) (d : Dict) :
    (∃ t', afterParse t d = .ok (t', d) ∧ t'.message ≠ "") ∨
    (∃ m t', afterParse t d = .error (.valueError m, t', d) ∧ m ≠ "") := by
  by_cases h1 : (missingKeys d).length > 1
  · exact Or.inr
      ⟨"Enter exactly two values to compute the missing one, or all three values to verify.",
        t, by simp [afterParse, h1], by decide⟩
  · by_cases h2 : (missingKeys d).length = 1
    · by_cases h3 : "c" ∈ missingKeys d
      · rcases compute_hypotenuse_cases t with ⟨t', ht'⟩ | ⟨m, hm, hne⟩
        · exact Or.inl ⟨{ t' with message := "Hypotenuse calculated" },
            by simp [afterParse, h1, h2, h3, ht'],
            by show "Hypotenuse calculated" ≠ ""; decide⟩
        · exact Or.inr ⟨m, t, by simp [afterParse, h1, h2, h3, hm], hne⟩
      · rcases compute_leg_cases t with ⟨t', ht'⟩ | ⟨m, hm, hne⟩
        · exact Or.inl ⟨{ t' with message := "Leg calculated" },
            by simp [afterParse, h1, h2, h3, ht'],
            by show "Leg calculated" ≠ ""; decide⟩
        · exact Or.inr ⟨m, t, by simp [afterParse, h1, h2, h3, hm], hne⟩
    · rcases normalise_cases t with ⟨t₁, h₁⟩ | ⟨m, hm, hne⟩
      · obtain ⟨hx, hy, hz⟩ := normalise_ok_sides h₁
        rcases is_triangle_possible_cases t₁ hx hy hz with ⟨t₂, h₂⟩ | ⟨m, hm, hne⟩
        · rcases is_right_triangle_cases t₂ with ⟨t₃, h₃⟩ | ⟨m, hm, hne⟩
          · by_cases hr : t₃.is_right = true
            · exact Or.inl ⟨{ t₃ with
                  message := "Input sorted: largest treated as hypotenuse. Triangle is RIGHT" },
                by simp [afterParse, h1, h2, h₁, h₂, h₃, hr],
                by show "Input sorted: largest treated as hypotenuse. Triangle is RIGHT" ≠ ""
                   decide⟩
            · exact Or.inl ⟨{ t₃ with
                  message := "Input sorted: largest treated as hypotenuse. Triangle is NOT right" },
                by simp [afterParse, h1, h2, h₁, h₂, h₃, hr],
                by show "Input sorted: largest treated as hypotenuse. Triangle is NOT right" ≠ ""
                   decide⟩
          · exact Or.inr ⟨m, t₂, by simp [afterParse, h1, h2, h₁, h₂, hm], hne⟩
        · exact Or.inr ⟨m, t₁, by simp [afterParse, h1, h2, h₁, hm], hne⟩
      · exact Or.inr ⟨m, t, by simp [afterParse, h1, h2, hm], hne⟩

theorem bodyRun_spec (data : Dict) :
    (∃ t d, bodyRun data = .ok (t, d) ∧ t.message ≠ "") ∨
    (∃ m t d, bodyRun data = .error (.valueError m, t, d) ∧ m ≠ "") := by
  by_cases hk : (List.map Prod.fst data).toFinset = ({"a", "b", "c"} : Finset String)
  · rcases parseLoop_cases data data {} with ⟨⟨t, d⟩, hpl⟩ | ⟨m, t', d', hpl, hne⟩
    · rcases afterParse_spec t d with ⟨t', hap, hmsg⟩ | ⟨m, t', hap, hne⟩
      · exact Or.inl ⟨t', d, by simp [bodyRun, validate_required_keys, hk, hpl, hap], hmsg⟩
      · exact Or.inr ⟨m, t', d, by simp [bodyRun, validate_required_keys, hk, hpl, hap], hne⟩
    · exact Or.inr ⟨m, t', d', by simp [bodyRun, validate_required_keys, hk, hpl], hne⟩
  · exact Or.inr ⟨"Data must contain exactly keys: a, b, c", {}, data,
      by simp [bodyRun, validate_required_keys, hk], by decide⟩

/-- C1: `proceed_data` always returns a record (no exception reaches the
caller), the returned record's `message` is non-empty, and whenever the
`try` body fails the result is exactly the failing-point record with
`message` set to the failure text and both flags reset — all other fields
(in particular any sides already assigned) are preserved as-is. -/
theorem proceed_data_spec (data : Dict) :
    ∃ t d, proceed_data data = .ok (t, d) ∧ t.message ≠ "" ∧
      ∀ m t₀ d₀, bodyRun data = .error (.valueError m, t₀, d₀) →
        t = { t₀ with message := m, is_valid := false, is_right := false } ∧ d = d₀ := by
  rcases bodyRun_spec data with ⟨t, d, hb, hmsg⟩ | ⟨m, t₀, d₀, hb, hne⟩
  · refine ⟨t, d, ?_, hmsg, ?_⟩
    · simp [proceed_data, hb, handleErr]
    · intro m t₀' d₀' h
      rw [hb] at h
      exact Except.noConfusion h
  · refine ⟨{ t₀ with message := m, is_valid := false, is_right := false }, d₀, ?_, hne, ?_⟩
    · simp [proceed_data, hb, handleErr]
    · intro m' t₀' d₀' h
      rw [hb] at h
      simp only [Except.error.injEq, Prod.mk.injEq, PyErr.valueError.injEq] at h
      obtain ⟨hm, ht, hd⟩ := h
      subst hm
      subst ht
      subst hd
      exact ⟨rfl, rfl⟩

theorem proceed_data_spec_witness :
    ∃ t d, proceed_data ([] : Dict) = .ok (t, d) ∧ t.message ≠ "" ∧
      ∀ m t₀ d₀, bodyRun ([] : Dict) = .error (.valueError m, t₀, d₀) →
        t = { t₀ with message := m, is_valid := false, is_right := false } ∧ d = d₀ :=
  proceed_data_spec []

/-! ### The parse loop on a well-formed dict -/

theorem dictSet_not_mem (d : Dict) (k : String) (v : PyVal)
    (h : k ∉ List.map Prod.fst d) : dictSet d k v = d := by
  induction d with
  | nil => rfl
  | cons kv rest ih =>
    simp only [List.map_cons, List.mem_cons, not_or] at h
    show (if kv.1 = k then (kv.1, v) else kv) :: dictSet rest k v = kv :: rest
    rw [if_neg (fun he => h.1 he.symm), ih h.2]

theorem list_map_eq_self {α : Type _} {f : α → α} :
    ∀ {l : List α}, List.map f l = l → ∀ x ∈ l, f x = x := by
  intro l
  induction l with
  | nil =>
    intro _ x hx
    cases hx
  | cons a as ih =>
    intro h x hx
    simp only [List.map_cons, List.cons.injEq] at h
    rcases List.mem_cons.mp hx with rfl | hx'
    · exact h.1
    · exact ih h.2 x hx'

theorem parseLoop_ok (l : List (String × PyVal)) : ∀ (pre : Dict) (t : TriangleData),
    (∀ kv ∈ l, ∃ ov, validate_value kv.1 kv.2 = .ok ov) →
    (List.map Prod.fst (pre ++ l)).Nodup →
    ∃ t', parseLoop l (pre ++ l) t = .ok (t', pre ++ parsedDict l) := by
  induction l with
  | nil =>
    intro pre t _ _
    exact ⟨t, by simp [parseLoop, parsedDict]⟩
  | cons kv rest ih =>
    intro pre t hv hnd
    obtain ⟨ov, hov⟩ := hv kv (List.mem_cons_self _ _)
    rw [show List.map Prod.fst (pre ++ kv :: rest) =
        List.map Prod.fst pre ++ kv.1 :: List.map Prod.fst rest by simp] at hnd
    have hknotpre : kv.1 ∉ List.map Prod.fst pre := fun hmem =>
      List.disjoint_of_nodup_append hnd hmem (List.mem_cons_self _ _)
    have hknotrest : kv.1 ∉ List.map Prod.fst rest :=
      (List.nodup_cons.mp (List.nodup_append.mp hnd).2.1).1
    have hset : dictSet (pre ++ kv :: rest) kv.1 (optToPyVal ov) =
        (pre ++ [(kv.1, optToPyVal ov)]) ++ rest := by
      show List.map _ (pre ++ kv :: rest) = _
      rw [List.map_append]
      show dictSet pre kv.1 (optToPyVal ov) ++
        ((if kv.1 = kv.1 then (kv.1, optToPyVal ov) else kv) ::
          dictSet rest kv.1 (optToPyVal ov)) = _
      rw [dictSet_not_mem pre kv.1 _ hknotpre, dictSet_not_mem rest kv.1 _ hknotrest,
        if_pos rfl, List.append_cons]
    have hnd' : (List.map Prod.fst ((pre ++ [(kv.1, optToPyVal ov)]) ++ rest)).Nodup := by
      simpa using hnd
    obtain ⟨t', ht'⟩ := ih (pre ++ [(kv.1, optToPyVal ov)]) (setAttr t kv.1 ov)
      (fun kv' hm => hv kv' (List.mem_cons_of_mem _ hm)) hnd'
    have hpd : parsedDict (kv :: rest) = (kv.1, optToPyVal ov) :: parsedDict rest := by
      simp [parsedDict, hov]
    refine ⟨t', ?_⟩
    calc parseLoop (kv :: rest) (pre ++ kv :: rest) t
        = parseLoop rest (dictSet (pre ++ kv :: rest) kv.1 (optToPyVal ov))
            (setAttr t kv.1 ov) := by simp [parseLoop, hov]
      _ = .ok (t', (pre ++ [(kv.1, optToPyVal ov)]) ++ parsedDict rest) := by
          rw [hset]; exact ht'
      _ = .ok (t', pre ++ parsedDict (kv :: rest)) := by rw [hpd]; simp

/-- C10: on a well-formed input dict (distinct keys, key set `{a, b, c}`,
all values parseable) `proceed_data` hands back the argument dict with
every value overwritten by its parsed float (or `None` when blank/absent);
if any value was a raw string, the dict the caller observes afterwards is
no longer the mapping it passed in. -/
theorem proceed_data_mutates (data : Dict)
    (hnd : (List.map Prod.fst data).Nodup)
    (hkeys : (List.map Prod.fst data).toFinset = ({"a", "b", "c"} : Finset String))
    (hparse : ∀ kv ∈ data, ∃ ov, validate_value kv.1 kv.2 = .ok ov) :
    (∃ t, proceed_data data = .ok (t, parsedDict data)) ∧
    ((∃ kv ∈ data, ∃ s, kv.2 = PyVal.vStr s) → parsedDict data ≠ data) := by
  constructor
  · obtain ⟨t', hpl⟩ := parseLoop_ok data [] ({} : TriangleData) hparse (by simpa using hnd)
    simp only [List.nil_append] at hpl
    rcases afterParse_spec t' (parsedDict data) with ⟨t'', hap, _⟩ | ⟨m, t'', hap, _⟩
    · exact ⟨t'',
        by simp [proceed_data, bodyRun, validate_required_keys, hkeys, hpl, hap, handleErr]⟩
    · exact ⟨{ t'' with message := m, is_valid := false, is_right := false },
        by simp [proceed_data, bodyRun, validate_required_keys, hkeys, hpl, hap, handleErr]⟩
  · rintro ⟨kv, hmem, s, hs⟩ heq
    obtain ⟨ov, hov⟩ := hparse kv hmem
    have hf := list_map_eq_self heq kv hmem
    simp only [hov] at hf
    have h2 : optToPyVal ov = kv.2 := congrArg Prod.snd hf
    rw [hs] at h2
    cases ov <;> simp [optToPyVal] at h2

theorem validate_value_pos (k : String) (x : ℝ) (hx : 0 < x) :
    validate_value k (.vStr (.num x)) = .ok (some x) := by
  simp [validate_value, not_le.mpr hx]

theorem proceed_data_mutates_witness :
    (∃ t, proceed_data [("a", PyVal.vStr (RawStr.num 3)), ("b", PyVal.vStr (RawStr.num 4)),
        ("c", PyVal.vStr RawStr.blank)] = .ok (t,
        parsedDict [("a", PyVal.vStr (RawStr.num 3)), ("b", PyVal.vStr (RawStr.num 4)),
          ("c", PyVal.vStr RawStr.blank)])) ∧
    ((∃ kv ∈ ([("a", PyVal.vStr (RawStr.num 3)), ("b", PyVal.vStr (RawStr.num 4)),
        ("c", PyVal.vStr RawStr.blank)] : Dict), ∃ s, kv.2 = PyVal.vStr s) →
      parsedDict [("a", PyVal.vStr (RawStr.num 3)), ("b", PyVal.vStr (RawStr.num 4)),
        ("c", PyVal.vStr RawStr.blank)] ≠
      [("a", PyVal.vStr (RawStr.num 3)), ("b", PyVal.vStr (RawStr.num 4)),
        ("c", PyVal.vStr RawStr.blank)]) :=
  proceed_data_mutates _ (by decide) (by decide)
    (by
      intro kv hm
      rcases List.mem_cons.mp hm with rfl | hm
      · exact ⟨some 3, validate_value_pos _ _ (by norm_num)⟩
      rcases List.mem_cons.mp hm with rfl | hm
      · exact ⟨some 4, validate_value_pos _ _ (by norm_num)⟩
      rcases List.mem_cons.mp hm with rfl | hm
      · exact ⟨none, rfl⟩
      · cases hm)

/-- C9: computing the hypotenuse from positive legs `(p, q)` in SOLVE mode
and then submitting `(p, q, c)` in VERIFY mode yields a record with
`is_right = true` and `is_valid = true`. -/
theorem round_trip (p q : ℝ) (hp : 0 < p) (hq : 0 < q) :
    ∃ t₁ d₁ h,
      proceed_data [("a", .vStr (.num p)), ("b", .vStr (.num q)), ("c", .vStr .blank)] =
        .ok (t₁, d₁) ∧ t₁.c = some h ∧
      ∃ t₂ d₂,
        proceed_data [("a", .vStr (.num p)), ("b", .vStr (.num q)), ("c", .vStr (.num h))] =
          .ok (t₂, d₂) ∧ t₂.is_right = true ∧ t₂.is_valid = true := by
  obtain ⟨h, hh⟩ : ∃ h, h = Real.sqrt (p * p + q * q) := ⟨_, rfl⟩
  have hsum : (0 : ℝ) < p * p + q * q := by positivity
  have hpos : 0 < h := hh ▸ Real.sqrt_pos.mpr hsum
  have hsq : h * h = p * p + q * q := hh ▸ Real.mul_self_sqrt hsum.le
  have hph : p ≤ h := by nlinarith
  have hqh : q ≤ h := by nlinarith
  have hlt : h < p + q := by nlinarith
  refine ⟨⟨some p, some q, some h, true, true, "Hypotenuse calculated"⟩,
    [("a", .vNum p), ("b", .vNum q), ("c", .vNone)], h, ?_, rfl, ?_⟩
  · have hpl1 : parseLoop
        [("a", .vStr (.num p)), ("b", .vStr (.num q)), ("c", .vStr .blank)]
        [("a", .vStr (.num p)), ("b", .vStr (.num q)), ("c", .vStr .blank)]
        ⟨none, none, none, false, false, ""⟩ =
        .ok (⟨some p, some q, none, false, false, ""⟩,
          [("a", .vNum p), ("b", .vNum q), ("c", .vNone)]) := by
      simp [parseLoop, validate_value, dictSet, setAttr, optToPyVal,
        not_le.mpr hp, not_le.mpr hq]
    have hap1 : afterParse ⟨some p, some q, none, false, false, ""⟩
        [("a", .vNum p), ("b", .vNum q), ("c", .vNone)] =
        .ok (⟨some p, some q, some h, true, true, "Hypotenuse calculated"⟩,
          [("a", .vNum p), ("b", .vNum q), ("c", .vNone)]) := by
      simp [afterParse, missingKeys, isVNone, TriangleData.compute_hypotenuse, hh]
    simp [proceed_data, bodyRun, validate_required_keys, handleErr, hpl1, hap1]
  · have hpl2 : parseLoop
        [("a", .vStr (.num p)), ("b", .vStr (.num q)), ("c", .vStr (.num h))]
        [("a", .vStr (.num p)), ("b", .vStr (.num q)), ("c", .vStr (.num h))]
        ⟨none, none, none, false, false, ""⟩ =
        .ok (⟨some p, some q, some h, false, false, ""⟩,
          [("a", .vNum p), ("b", .vNum q), ("c", .vNum h)]) := by
      simp [parseLoop, validate_value, dictSet, setAttr, optToPyVal,
        not_le.mpr hp, not_le.mpr hq, not_le.mpr hpos]
    have hmiss : missingKeys [("a", PyVal.vNum p), ("b", PyVal.vNum q), ("c", PyVal.vNum h)]
        = [] := by
      simp [missingKeys, isVNone]
    have hdec : decide (|p * p + q * q - h * h| ≤
        max (1 / 10 ^ 12) (1 / 10 ^ 9 * max (p * p + q * q) (h * h))) = true := by
      rw [decide_eq_true_eq, hsq, sub_self, abs_zero]
      exact le_max_of_le_left (by norm_num)
    rcases le_or_lt p q with hpq | hpq
    · have hs3 : sort3 p q h = (p, q, h) := sort3_eq_of_sorted p q h hpq hqh
      have hnor : TriangleData.normalise ⟨some p, some q, some h, false, false, ""⟩ =
          .ok ⟨some p, some q, some h, false, false, ""⟩ := by
        simp [TriangleData.normalise, hs3]
      have hposs : TriangleData.is_triangle_possible
          ⟨some p, some q, some h, false, false, ""⟩ =
          .ok ⟨some p, some q, some h, false, true, ""⟩ := by
        simp [TriangleData.is_triangle_possible, not_le.mpr hlt]
      have hrt : TriangleData.is_right_triangle
          ⟨some p, some q, some h, false, true, ""⟩ =
          .ok ⟨some p, some q, some h, true, true, ""⟩ := by
        simp only [TriangleData.is_right_triangle]
        rw [hdec]
      refine ⟨⟨some p, some q, some h, true, true,
        "Input sorted: largest treated as hypotenuse. Triangle is RIGHT"⟩,
        [("a", .vNum p), ("b", .vNum q), ("c", .vNum h)], ?_, rfl, rfl⟩
      simp [proceed_data, bodyRun, validate_required_keys, handleErr, hpl2,
        afterParse, hmiss, hnor, hposs, hrt]
    · have hs3 : sort3 p q h = (q, p, h) := by
        unfold sort3
        rw [if_neg (not_le.mpr hpq), if_pos hph]
      have hnor : TriangleData.normalise ⟨some p, some q, some h, false, false, ""⟩ =
          .ok ⟨some q, some p, some h, false, false, ""⟩ := by
        simp [TriangleData.normalise, hs3]
      have hposs : TriangleData.is_triangle_possible
          ⟨some q, some p, some h, false, false, ""⟩ =
          .ok ⟨some q, some p, some h, false, true, ""⟩ := by
        have hqp : ¬ q + p ≤ h := by
          rw [add_comm]
          exact not_le.mpr hlt
        simp [TriangleData.is_triangle_possible, hqp]
      have hrt : TriangleData.is_right_triangle
          ⟨some q, some p, some h, false, true, ""⟩ =
          .ok ⟨some q, some p, some h, true, true, ""⟩ := by
        simp only [TriangleData.is_right_triangle]
        rw [show q * q + p * p = p * p + q * q by ring, hdec]
      refine ⟨⟨some q, some p, some h, true, true,
        "Input sorted: largest treated as hypotenuse. Triangle is RIGHT"⟩,
        [("a", .vNum p), ("b", .vNum q), ("c", .vNum h)], ?_, rfl, rfl⟩
      simp [proceed_data, bodyRun, validate_required_keys, handleErr, hpl2,
        afterParse, hmiss, hnor, hposs, hrt]

theorem round_trip_witness :
    ∃ t₁ d₁ h,
      proceed_data [("a", .vStr (.num 3)), ("b", .vStr (.num 4)), ("c", .vStr .blank)] =
        .ok (t₁, d₁) ∧ t₁.c = some h ∧
      ∃ t₂ d₂,
        proceed_data [("a", .vStr (.num 3)), ("b", .vStr (.num 4)), ("c", .vStr (.num h))] =
          .ok (t₂, d₂) ∧ t₂.is_right = true ∧ t₂.is_valid = true :=
  round_trip 3 4 (by norm_num) (by norm_num)
